import Mathlib

/-!
Verification of the immuni-ci-scheduler repository.

This file gives a shallow embedding, in Lean 4, of the parts of the
repository relevant to the frozen claims:

* `src/helpers/utils.py`   — content fingerprinting (`_compute_file_hash`,
  `get_files_by_hash_map`).
* `src/helpers/circleci.py` — the paginated pipeline listing
  (`CircleCI.fetch_pipelines`, `CircleCI.filter_pipelines`).
* `src/scheduler.py`       — the safety verifier (`_safety_check`), the
  per-pipeline check (`_check_pipeline`), the pull-request deduplication
  loop and the resource bookkeeping of `check_and_schedule`.

Modelling conventions:
* Python byte strings are `List Nat`; SHA-256 is an explicit parameter
  `digest : List Nat → String` (resp. `h : String → String` for text),
  since only the streaming structure and equality of digests matter.
* Python dictionaries `Dict[str, Optional[str]]` are association lists
  `List (String × Option String)`; Python sets of strings are `List String`
  (produced without duplicates from dict keys).
* External I/O (CircleCI API calls, git clone/checkout) is modelled by
  oracle records whose fields carry the outcome of each call as an
  `Except String _` value; an `Except.error` models a raised exception.
* `markdown_strings.esc_format` is an out-of-scope shim, modelled as a
  parameter `esc : String → String`.
-/

/-! ## helpers/utils.py — content fingerprinting -/

namespace CIUtils

/-- The block structure produced by `iter(lambda: f.read(4096), b"")` in
`_compute_file_hash`: the file content split into successive blocks of at
most 4096 bytes, stopping at the first empty read. -/
def chunksOf4096 (l : List Nat) : List (List Nat) :=
  if l.isEmpty then [] else l.take 4096 :: chunksOf4096 (l.drop 4096)
termination_by l.length
decreasing_by
  rename_i hne
  have hl : 0 < l.length := by
    cases l with
    | nil => simp [List.isEmpty] at hne
    | cons a t => simp
  simp only [List.length_drop]
  omega

/-- Embedding of `_compute_file_hash` (utils.py, lines 84-100).

The file system is modelled by the file's content: `none` when the file
does not exist (the `FileNotFoundError` branch), `some bytes` otherwise.
`digest` models `hashlib.sha256(...).hexdigest()`; the streaming
`sha256_hash.update(byte_block)` loop is modelled by accumulating the
blocks of `chunksOf4096` and digesting the accumulated bytes. -/
def compute_file_hash (digest : List Nat → String) (content : Option (List Nat)) :
    Option String :=
  match content with
  | none => none
  | some bs => some (digest ((chunksOf4096 bs).foldl (fun acc c => acc ++ c) []))

/-- Embedding of `get_files_by_hash_map` (utils.py, lines 55-67): the keys
of the map whose hash is not `None`. -/
def get_files_by_hash_map (file_hashes : List (String × Option String)) : List String :=
  (file_hashes.filter (fun p => p.2.isSome)).map Prod.fst

end CIUtils

/-! ## scheduler.py — the safety verifier `_safety_check` -/

namespace Scheduler

/-- `", ".join(l)` -/
def joinComma (l : List String) : String :=
  String.intercalate ", " l

/-- `current_protected_files - reference_protected_files` over the non-null
keys of the two hash maps (scheduler.py, line 482). -/
def addedFiles (cur ref : List (String × Option String)) : List String :=
  (CIUtils.get_files_by_hash_map cur).filter
    (fun f => ¬ (CIUtils.get_files_by_hash_map ref).contains f)

/-- `reference_protected_files.intersection(current_protected_files)`
(scheduler.py, line 483). -/
def commonFiles (cur ref : List (String × Option String)) : List String :=
  (CIUtils.get_files_by_hash_map ref).filter
    (fun f => (CIUtils.get_files_by_hash_map cur).contains f)

/-- `reference_protected_files - current_protected_files`
(scheduler.py, line 484). -/
def deletedFiles (cur ref : List (String × Option String)) : List String :=
  (CIUtils.get_files_by_hash_map ref).filter
    (fun f => ¬ (CIUtils.get_files_by_hash_map cur).contains f)

/-- The `modified_files` loop of `_safety_check` (scheduler.py, lines
485-489): common files whose reference and candidate hashes differ. -/
def modifiedFiles (cur ref : List (String × Option String)) : List String :=
  (commonFiles cur ref).filter (fun f => ref.lookup f != cur.lookup f)

/-- Embedding of `_safety_check` (scheduler.py, lines 450-517).

Arguments follow the source's order: candidate protected-file hashes,
candidate scheduler-submodule SHA, candidate compiled configuration,
reference compiled configuration, reference protected-file hashes,
reference scheduler-submodule SHA.  `esc` models
`markdown_strings.esc_format` and `h` models
`hashlib.sha256(_.encode("utf-8")).hexdigest()`. -/
def safety_check (esc : String → String) (h : String → String)
    (current_protected_file_hashes : List (String × Option String))
    (current_scheduler_sha : String)
    (pipeline_config : String)
    (reference_config : String)
    (reference_protected_file_hashes : List (String × Option String))
    (reference_scheduler_sha : String) : Bool × String :=
  let added_files := addedFiles current_protected_file_hashes reference_protected_file_hashes
  let deleted_files := deletedFiles current_protected_file_hashes reference_protected_file_hashes
  let modified_files := modifiedFiles current_protected_file_hashes reference_protected_file_hashes
  let safe := true
  let message := ""
  let (safe, message) :=
    if ¬ added_files.isEmpty then
      let escaped_added_files := esc (joinComma added_files)
      (false, message ++ ("- The following files have been added: " ++ escaped_added_files ++ ".\n"))
    else (safe, message)
  let (safe, message) :=
    if ¬ deleted_files.isEmpty then
      let escaped_deleted_files := esc (joinComma deleted_files)
      (false, message ++ ("- The following files have been deleted: " ++ escaped_deleted_files ++ ".\n"))
    else (safe, message)
  let (safe, message) :=
    if ¬ modified_files.isEmpty then
      let escaped_modified_files := esc (joinComma modified_files)
      (false, message ++ ("- The following files have been modified: " ++ escaped_modified_files ++ ".\n"))
    else (safe, message)
  let pipeline_config_hash := h pipeline_config
  let reference_config_hash := h reference_config
  let (safe, message) :=
    if pipeline_config_hash ≠ reference_config_hash then
      (false, message ++ "- The CircleCI configuration file has been modified.\n")
    else (safe, message)
  let (safe, message) :=
    if current_scheduler_sha ≠ reference_scheduler_sha then
      (false, message ++ "- The revision of the scheduler submodule has changed.\n")
    else (safe, message)
  (safe, message)

end Scheduler

/-! ## Helper lemmas -/

namespace CIUtils

theorem chunksOf4096_flatten (l : List Nat) : (chunksOf4096 l).flatten = l := by
  rw [chunksOf4096]
  split
  · next h => simp [List.isEmpty_iff.mp h]
  · next h =>
    rw [List.flatten_cons, chunksOf4096_flatten (l.drop 4096)]
    exact List.take_append_drop 4096 l
termination_by l.length
decreasing_by
  rename_i hne
  have hl : 0 < l.length := by
    cases l with
    | nil => simp [List.isEmpty] at hne
    | cons a t => simp
  simp only [List.length_drop]
  omega

theorem chunksOf4096_length_le (l c : List Nat) (hc : c ∈ chunksOf4096 l) :
    c.length ≤ 4096 := by
  rw [chunksOf4096] at hc
  split at hc
  · simp at hc
  · rcases List.mem_cons.mp hc with h | h
    · subst h
      simp [List.length_take]
    · exact chunksOf4096_length_le (l.drop 4096) c h
termination_by l.length
decreasing_by
  have hl : 0 < l.length := by
    rcases l with _ | ⟨a, t⟩
    · simp_all
    · simp
  simp only [List.length_drop]
  omega

theorem foldl_append_eq_flatten (ls : List (List Nat)) (acc : List Nat) :
    ls.foldl (fun a c => a ++ c) acc = acc ++ ls.flatten := by
  induction ls generalizing acc with
  | nil => simp
  | cons x t ih => simp [ih, List.append_assoc]

end CIUtils


/-! ## Claims C8 and C1 -/

/-- C8: the fingerprint function is deterministic — the digest of a present
file is the digest of its full byte content (the 4096-byte block reading is
transparent, so identical content always yields an identical digest); an
absent file fingerprints to the sentinel `none`, distinct from the digest of
every byte sequence including the empty one; and the file is processed as a
sequence of blocks each of at most 4096 bytes. -/
theorem C8_fingerprint (digest : List Nat → String) (bs c : List Nat) :
    CIUtils.compute_file_hash digest (some bs) = some (digest bs)
    ∧ CIUtils.compute_file_hash digest none = none
    ∧ (∀ b : List Nat,
        CIUtils.compute_file_hash digest (some b) ≠ CIUtils.compute_file_hash digest none)
    ∧ (c ∈ CIUtils.chunksOf4096 bs → c.length ≤ 4096) := by
  refine ⟨?_, rfl, ?_, ?_⟩
  · simp [CIUtils.compute_file_hash, CIUtils.foldl_append_eq_flatten,
      CIUtils.chunksOf4096_flatten]
  · intro b
    simp [CIUtils.compute_file_hash]
  · exact CIUtils.chunksOf4096_length_le bs c

/-- Witness for C8 at concrete input `[7, 8, 9]` with a concrete digest. -/
theorem C8_fingerprint_witness :
    CIUtils.compute_file_hash (fun _ => "d") (some [7, 8, 9]) = some "d"
    ∧ ([7, 8, 9] ∈ CIUtils.chunksOf4096 [7, 8, 9] ∧ ([7, 8, 9] : List Nat).length ≤ 4096) := by
  have h := C8_fingerprint (fun _ => "d") [7, 8, 9] [7, 8, 9]
  have hmem : [7, 8, 9] ∈ CIUtils.chunksOf4096 [7, 8, 9] := by
    rw [CIUtils.chunksOf4096]
    simp
  exact ⟨h.1, hmem, h.2.2.2 hmem⟩

/-- C1: the safety check is safe exactly when the added, deleted and
modified protected-file sets are all empty, the two compiled-configuration
digests are equal and the two scheduler-submodule revisions are equal; and
the diff-report message is the concatenation of five independent segments,
one per failing dimension, each a single finding line, so distinct failure
reasons are never merged into one finding. -/
theorem C1_safety_check_verdict (esc h : String → String)
    (cur : List (String × Option String)) (cs pc rc : String)
    (ref : List (String × Option String)) (rs : String) :
    ((Scheduler.safety_check esc h cur cs pc rc ref rs).1 = true ↔
      (Scheduler.addedFiles cur ref = [] ∧ Scheduler.deletedFiles cur ref = []
        ∧ Scheduler.modifiedFiles cur ref = [] ∧ h pc = h rc ∧ cs = rs))
    ∧ (Scheduler.safety_check esc h cur cs pc rc ref rs).2 =
        (if Scheduler.addedFiles cur ref = [] then "" else
          "- The following files have been added: "
            ++ esc (Scheduler.joinComma (Scheduler.addedFiles cur ref)) ++ ".\n")
        ++ ((if Scheduler.deletedFiles cur ref = [] then "" else
          "- The following files have been deleted: "
            ++ esc (Scheduler.joinComma (Scheduler.deletedFiles cur ref)) ++ ".\n")
        ++ ((if Scheduler.modifiedFiles cur ref = [] then "" else
          "- The following files have been modified: "
            ++ esc (Scheduler.joinComma (Scheduler.modifiedFiles cur ref)) ++ ".\n")
        ++ ((if h pc = h rc then "" else
          "- The CircleCI configuration file has been modified.\n")
        ++ (if cs = rs then "" else
          "- The revision of the scheduler submodule has changed.\n")))) := by
  unfold Scheduler.safety_check
  by_cases ha : Scheduler.addedFiles cur ref = [] <;>
    by_cases hd : Scheduler.deletedFiles cur ref = [] <;>
      by_cases hm : Scheduler.modifiedFiles cur ref = [] <;>
        by_cases hc : h pc = h rc <;>
          by_cases hs : cs = rs <;>
            simp [ha, hd, hm, hc, hs, List.isEmpty_iff, String.append_assoc]

/-! ## helpers/circleci.py — paginated pipeline listing -/

namespace CircleCI

/-- A pipeline record, with the fields `fetch_pipelines` and
`filter_pipelines` read: its `id` and its submission `number`. -/
structure CPipeline where
  id : String
  number : Nat
deriving DecidableEq, Repr

/-- A workflow record as returned by `get_pipeline_workflows`. -/
structure CWorkflow where
  name : String
  status : String
deriving DecidableEq, Repr

/-- One server response of `GET project/<slug>/pipeline`: its `items` and
whether `next_page_token` is non-empty (Python tests
`not response["next_page_token"]`, so `None` and `""` both mean "no
token"). -/
structure Page where
  items : List CPipeline
  hasNextPageToken : Bool
deriving DecidableEq, Repr

/-- Return type of `filter_pipelines` (the `FilteredPipelines` named
tuple, circleci.py lines 33-35). -/
structure FilteredPipelines where
  pipelines : List CPipeline
  found_stopping_pipeline : Bool
deriving DecidableEq, Repr

/-- The guard `stopping_pipeline_id and pipeline["id"] == stopping_pipeline_id`
(circleci.py line 141): Python truthiness makes `None` and the empty string
both mean "no stopping id". -/
def stopMatches (stopping_pipeline_id : Option String) (p : CPipeline) : Bool :=
  match stopping_pipeline_id with
  | none => false
  | some s => s ≠ "" && p.id = s

/-- Embedding of `CircleCI.filter_pipelines` (circleci.py lines 122-146):
collect pipelines until the stopping id is met, recording whether it was. -/
def filter_pipelines (pipelines : List CPipeline)
    (stopping_pipeline_id : Option String) : FilteredPipelines :=
  match pipelines with
  | [] => ⟨[], false⟩
  | p :: rest =>
    if stopMatches stopping_pipeline_id p then ⟨[], true⟩
    else
      let r := filter_pipelines rest stopping_pipeline_id
      ⟨p :: r.pipelines, r.found_stopping_pipeline⟩

/-- The matching conditions of the filtered branch of `fetch_pipelines`
(circleci.py lines 90-109), evaluated on the single
`get_pipeline_workflows` response for the pipeline. -/
def pipelineMatches (wf : String → List CWorkflow)
    (containing_workflows not_containing_workflows : List String)
    (successful_only : Bool) (p : CPipeline) : Bool :=
  let workflows := wf p.id
  let names := workflows.map (fun w => w.name)
  let matching := true
  let matching :=
    if containing_workflows.isEmpty then matching
    else matching && containing_workflows.all (fun name => names.contains name)
  let matching :=
    if not_containing_workflows.isEmpty then matching
    else matching && not_containing_workflows.all (fun name => !names.contains name)
  let matching :=
    if successful_only then
      let workflows_to_check :=
        if containing_workflows.isEmpty then workflows
        else workflows.filter (fun w => containing_workflows.contains w.name)
      matching && workflows_to_check.all (fun w => w.status == "success")
    else matching
  matching

/-- State threaded through the pagination loop of `fetch_pipelines`:
the accumulated `retrieved_pipelines`, the current
`found_stopping_pipeline` flag, and an instrumentation counter of
`get_pipeline_workflows` calls (secondary lookups). -/
structure LoopState where
  retrieved : List CPipeline
  found_stopping_pipeline : Bool
  lookups : Nat
deriving DecidableEq, Repr

/-- `limit is not None and len(retrieved_pipelines) >= limit`. -/
def limitReached (limit : Option Nat) (retrieved : List CPipeline) : Bool :=
  match limit with
  | none => false
  | some l => retrieved.length ≥ l

/-- The inner `for pipeline in filtered_pipelines` loop of `fetch_pipelines`
(circleci.py lines 84-111), active when a workflow or success filter is
set.  Each iteration first checks the limit (breaking with
`found_stopping_pipeline = True`), then performs one secondary workflow
lookup, then appends the pipeline when it matches. -/
def match_loop (wf : String → List CWorkflow) (cw ncw : List String)
    (limit : Option Nat) (so : Bool) (ps : List CPipeline) (st : LoopState) : LoopState :=
  match ps with
  | [] => st
  | p :: rest =>
    if limitReached limit st.retrieved then
      { st with found_stopping_pipeline := true }
    else
      let st1 : LoopState := { st with lookups := st.lookups + 1 }
      if pipelineMatches wf cw ncw so p then
        match_loop wf cw ncw limit so rest { st1 with retrieved := st1.retrieved ++ [p] }
      else
        match_loop wf cw ncw limit so rest st1

/-- Result of `fetch_pipelines`, instrumented with the number of pages
requested (`self._get` calls on the pipeline listing endpoint) and the
number of secondary workflow lookups. -/
structure FetchResult where
  pipelines : List CPipeline
  pagesFetched : Nat
  lookups : Nat
deriving DecidableEq, Repr

/-- `containing_workflows or not_containing_workflows or successful_only`
(circleci.py line 83) under Python truthiness. -/
def filtersActive (cw ncw : List String) (so : Bool) : Bool :=
  !cw.isEmpty || !ncw.isEmpty || so

/-- The `while not stopping` pagination loop of `fetch_pipelines`
(circleci.py lines 75-118).  `pages` is the sequence of server responses
still available; consuming the head models performing the HTTP request for
the current page.  After processing a page,
`stopping = found_stopping_pipeline or not next_page_token or not multipage`
decides whether another page is requested. -/
def fetch_go (wf : String → List CWorkflow) (cw ncw : List String)
    (limit : Option Nat) (multipage : Bool) (so : Bool) (stop : Option String)
    (pages : List Page) (retrieved : List CPipeline)
    (pagesFetched lookups : Nat) : FetchResult :=
  match pages with
  | [] => ⟨retrieved, pagesFetched, lookups⟩
  | pg :: rest =>
    let fp := filter_pipelines pg.items stop
    let st : LoopState :=
      if filtersActive cw ncw so then
        match_loop wf cw ncw limit so fp.pipelines
          ⟨retrieved, fp.found_stopping_pipeline, lookups⟩
      else
        ⟨retrieved ++ fp.pipelines, fp.found_stopping_pipeline, lookups⟩
    let stopping := st.found_stopping_pipeline || !pg.hasNextPageToken || !multipage
    if stopping then ⟨st.retrieved, pagesFetched + 1, st.lookups⟩
    else fetch_go wf cw ncw limit multipage so stop rest st.retrieved (pagesFetched + 1) st.lookups

/-- Embedding of `CircleCI.fetch_pipelines` (circleci.py lines 43-120). -/
def fetch_pipelines (wf : String → List CWorkflow) (cw ncw : List String)
    (limit : Option Nat) (multipage : Bool) (so : Bool) (stop : Option String)
    (pages : List Page) : FetchResult :=
  fetch_go wf cw ncw limit multipage so stop pages [] 0 0

end CircleCI

namespace CircleCI

theorem filter_pipelines_not_found (s : String) (hs : s ≠ "") (items : List CPipeline)
    (h : ∀ p ∈ items, p.id ≠ s) :
    filter_pipelines items (some s) = ⟨items, false⟩ := by
  induction items with
  | nil => rfl
  | cons p rest ih =>
    have hp : stopMatches (some s) p = false := by
      simp [stopMatches, hs, h p (List.mem_cons_self p rest)]
    simp [filter_pipelines, hp, ih (fun q hq => h q (List.mem_cons_of_mem p hq))]

theorem filter_pipelines_found (s : String) (hs : s ≠ "") (items : List CPipeline)
    (h : ∃ p ∈ items, p.id = s) :
    filter_pipelines items (some s) = ⟨items.takeWhile (fun p => p.id != s), true⟩ := by
  induction items with
  | nil => simp at h
  | cons p rest ih =>
    by_cases hp : p.id = s
    · simp [filter_pipelines, stopMatches, hs, hp, List.takeWhile_cons]
    · have h' : ∃ q ∈ rest, q.id = s := by
        rcases h with ⟨q, hq, hqs⟩
        rcases List.mem_cons.mp hq with rfl | hq'
        · exact absurd hqs hp
        · exact ⟨q, hq', hqs⟩
      simp [filter_pipelines, stopMatches, hs, hp, ih h', List.takeWhile_cons]

theorem fetch_go_stop (wf : String → List CWorkflow) (limit : Option Nat) (s : String)
    (hs : s ≠ "") (front : List Page) (pg : Page) (rest : List Page)
    (acc : List CPipeline) (n k : Nat)
    (hfront : ∀ q ∈ front, q.hasNextPageToken = true ∧ ∀ p ∈ q.items, p.id ≠ s)
    (hpg : ∃ p ∈ pg.items, p.id = s) :
    fetch_go wf [] [] limit true false (some s) (front ++ pg :: rest) acc n k =
      ⟨acc ++ ((front.map Page.items).flatten
          ++ pg.items.takeWhile (fun p => p.id != s)),
        n + front.length + 1, k⟩ := by
  induction front generalizing acc n with
  | nil =>
    simp only [List.nil_append]
    rw [fetch_go]
    simp [filter_pipelines_found s hs pg.items hpg, filtersActive]
  | cons q front' ih =>
    have hq := hfront q (List.mem_cons_self q front')
    have hfront' : ∀ r ∈ front', r.hasNextPageToken = true ∧ ∀ p ∈ r.items, p.id ≠ s :=
      fun r hr => hfront r (List.mem_cons_of_mem q hr)
    simp only [List.cons_append]
    rw [fetch_go]
    simp only [filter_pipelines_not_found s hs q.items hq.2, filtersActive]
    simp [hq.1, ih (acc ++ q.items) (n + 1) hfront', List.append_assoc]
    omega

end CircleCI

/-! ## Claims C2 and C10 -/

/-- C2: with multipage requested and no workflow filters, each page passes
through the stop-before filter before the continuation decision: when the
stop id first appears on a page, that page is the last one requested
(`front.length + 1` pages for `front` stop-free pages before it), and the
returned list is exactly the pipelines appearing strictly before the stop
id — all items of the earlier pages plus the items of the stop page that
precede the stop id.  Moreover pagination continues across pages only while
multipage is requested and a continuation token is present: exactly one
page is requested when multipage is off, or when the first page carries no
continuation token. -/
theorem C2_fetch_pipelines_stop (wf : String → List CircleCI.CWorkflow)
    (limit : Option Nat) (s : String) (front : List CircleCI.Page)
    (pg : CircleCI.Page) (rest : List CircleCI.Page)
    (hs : s ≠ "")
    (hfront : ∀ q ∈ front, q.hasNextPageToken = true ∧ ∀ p ∈ q.items, p.id ≠ s)
    (hpg : ∃ p ∈ pg.items, p.id = s) :
    (CircleCI.fetch_pipelines wf [] [] limit true false (some s) (front ++ pg :: rest) =
      ⟨(front.map CircleCI.Page.items).flatten
          ++ pg.items.takeWhile (fun p => p.id != s),
        front.length + 1, 0⟩)
    ∧ (∀ (stop2 : Option String) (pg2 : CircleCI.Page) (rest2 : List CircleCI.Page),
        (CircleCI.fetch_pipelines wf [] [] limit false false stop2 (pg2 :: rest2)).pagesFetched
          = 1)
    ∧ (∀ (stop2 : Option String) (pg2 : CircleCI.Page) (rest2 : List CircleCI.Page),
        pg2.hasNextPageToken = false →
        (CircleCI.fetch_pipelines wf [] [] limit true false stop2 (pg2 :: rest2)).pagesFetched
          = 1) := by
  refine ⟨?_, ?_, ?_⟩
  · have h := CircleCI.fetch_go_stop wf limit s hs front pg rest [] 0 0 hfront hpg
    simpa [CircleCI.fetch_pipelines] using h
  · intro stop2 pg2 rest2
    rw [CircleCI.fetch_pipelines, CircleCI.fetch_go]
    simp
  · intro stop2 pg2 rest2 htok
    rw [CircleCI.fetch_pipelines, CircleCI.fetch_go]
    simp [htok]

/-- Witness for C2: three pages, the stop id on page 2 — page 3 is never
requested and exactly the pipelines strictly newer than the stop id are
returned. -/
theorem C2_fetch_pipelines_stop_witness :
    CircleCI.fetch_pipelines (fun _ => []) [] [] none true false (some "s")
      [⟨[⟨"a", 5⟩, ⟨"b", 4⟩], true⟩, ⟨[⟨"c", 3⟩, ⟨"s", 2⟩, ⟨"d", 1⟩], true⟩,
        ⟨[⟨"e", 0⟩], false⟩] =
      ⟨[⟨"a", 5⟩, ⟨"b", 4⟩, ⟨"c", 3⟩], 2, 0⟩ := by
  have h := (C2_fetch_pipelines_stop (fun _ => []) none "s"
      [⟨[⟨"a", 5⟩, ⟨"b", 4⟩], true⟩] ⟨[⟨"c", 3⟩, ⟨"s", 2⟩, ⟨"d", 1⟩], true⟩
      [⟨[⟨"e", 0⟩], false⟩] (by decide)
      (by intro q hq; refine ⟨?_, ?_⟩ <;> simp_all)
      (by exact ⟨⟨"s", 2⟩, by simp, rfl⟩)).1
  simpa using h

/-- C10: when none of the workflow-containment, workflow-exclusion or
success filters is set, the `limit` argument of `fetch_pipelines` has no
effect at all: the result (returned pipelines, pages requested, secondary
lookups) is identical to a call without a limit. -/
theorem C10_fetch_pipelines_limit_noop (wf : String → List CircleCI.CWorkflow)
    (limit : Option Nat) (multipage : Bool) (stop : Option String)
    (pages : List CircleCI.Page) :
    CircleCI.fetch_pipelines wf [] [] limit multipage false stop pages =
      CircleCI.fetch_pipelines wf [] [] none multipage false stop pages := by
  rw [CircleCI.fetch_pipelines, CircleCI.fetch_pipelines]
  suffices h : ∀ (ps : List CircleCI.Page) (acc : List CircleCI.CPipeline) (n k : Nat),
      CircleCI.fetch_go wf [] [] limit multipage false stop ps acc n k =
        CircleCI.fetch_go wf [] [] none multipage false stop ps acc n k by
    exact h pages [] 0 0
  intro ps
  induction ps with
  | nil => intro acc n k; rfl
  | cons pg rest ih =>
    intro acc n k
    rw [CircleCI.fetch_go, CircleCI.fetch_go]
    simp [CircleCI.filtersActive, ih]

/-! ## Claim C7 -/

namespace CircleCI

theorem match_loop_isFull (wf : String → List CWorkflow) (cw ncw : List String)
    (l : Nat) (so : Bool) (ps : List CPipeline) (st : LoopState)
    (h : st.retrieved.length ≥ l) :
    (match_loop wf cw ncw (some l) so ps st).retrieved = st.retrieved
    ∧ (match_loop wf cw ncw (some l) so ps st).lookups = st.lookups := by
  cases ps with
  | nil => exact ⟨rfl, rfl⟩
  | cons p rest =>
    rw [match_loop]
    simp [limitReached, h]

theorem match_loop_isFull_found (wf : String → List CWorkflow) (cw ncw : List String)
    (l : Nat) (so : Bool) (p : CPipeline) (ps : List CPipeline) (st : LoopState)
    (h : st.retrieved.length ≥ l) :
    (match_loop wf cw ncw (some l) so (p :: ps) st).found_stopping_pipeline = true := by
  rw [match_loop]
  simp [limitReached, h]

theorem match_loop_length_le (wf : String → List CWorkflow) (cw ncw : List String)
    (l : Nat) (so : Bool) (ps : List CPipeline) (st : LoopState) :
    (match_loop wf cw ncw (some l) so ps st).retrieved.length
      ≤ max st.retrieved.length l := by
  induction ps generalizing st with
  | nil => simp [match_loop]
  | cons p rest ih =>
    rw [match_loop]
    by_cases h : limitReached (some l) st.retrieved = true
    · simp [h]
    · have hlt : st.retrieved.length < l := by
        simp [limitReached] at h
        omega
      simp only [h]
      by_cases hm : pipelineMatches wf cw ncw so p = true
      · simp only [hm, if_true, Bool.false_eq_true, if_false]
        have := ih { st with lookups := st.lookups + 1,
                             retrieved := st.retrieved ++ [p] }
        simp at this
        omega
      · simp only [hm, Bool.false_eq_true, if_false]
        have := ih { st with lookups := st.lookups + 1 }
        simp at this
        omega

theorem fetch_go_length_le (wf : String → List CWorkflow) (cw ncw : List String)
    (l : Nat) (multipage so : Bool) (stop : Option String) (pages : List Page)
    (acc : List CPipeline) (n k : Nat)
    (hactive : filtersActive cw ncw so = true) :
    (fetch_go wf cw ncw (some l) multipage so stop pages acc n k).pipelines.length
      ≤ max acc.length l := by
  induction pages generalizing acc n k with
  | nil => simp [fetch_go]
  | cons pg rest ih =>
    rw [fetch_go]
    simp only [hactive, if_true]
    have hml := match_loop_length_le wf cw ncw l so
      (filter_pipelines pg.items stop).pipelines
      ⟨acc, (filter_pipelines pg.items stop).found_stopping_pipeline, k⟩
    split
    · exact hml
    · have hrec := ih (match_loop wf cw ncw (some l) so
        (filter_pipelines pg.items stop).pipelines
        ⟨acc, (filter_pipelines pg.items stop).found_stopping_pipeline, k⟩).retrieved
        (n + 1)
        (match_loop wf cw ncw (some l) so
          (filter_pipelines pg.items stop).pipelines
          ⟨acc, (filter_pipelines pg.items stop).found_stopping_pipeline, k⟩).lookups
      have hml2 : (match_loop wf cw ncw (some l) so
          (filter_pipelines pg.items stop).pipelines
          ⟨acc, (filter_pipelines pg.items stop).found_stopping_pipeline, k⟩).retrieved.length
          ≤ max acc.length l := hml
      omega

theorem fetch_go_isFull (wf : String → List CWorkflow) (cw ncw : List String)
    (l : Nat) (multipage so : Bool) (stop : Option String) (pages : List Page)
    (acc : List CPipeline) (n k : Nat)
    (hactive : filtersActive cw ncw so = true) (hfull : acc.length ≥ l) :
    (fetch_go wf cw ncw (some l) multipage so stop pages acc n k).pipelines = acc
    ∧ (fetch_go wf cw ncw (some l) multipage so stop pages acc n k).lookups = k := by
  induction pages generalizing n with
  | nil => exact ⟨rfl, rfl⟩
  | cons pg rest ih =>
    rw [fetch_go]
    simp only [hactive, if_true]
    have hml := match_loop_isFull wf cw ncw l so
      (filter_pipelines pg.items stop).pipelines
      ⟨acc, (filter_pipelines pg.items stop).found_stopping_pipeline, k⟩ hfull
    split
    · exact ⟨hml.1, hml.2⟩
    · rw [hml.1, hml.2]
      exact ih (n + 1)

end CircleCI

/-- C7 counterexample: with the success filter active, `limit = 1` and
multipage on, a matching pipeline that closes page 1 exactly does not stop
pagination there: page 2 is still requested (pagesFetched = 2) even though
the limit was already met, contradicting the claim that once `limit`
matching pipelines have been collected no further pages are fetched. -/
theorem C7_limit_counterexample :
    CircleCI.fetch_pipelines (fun _ => [⟨"w", "success"⟩]) [] [] (some 1) true true none
      [⟨[⟨"a", 1⟩], true⟩, ⟨[⟨"b", 2⟩], false⟩] =
      ⟨[⟨"a", 1⟩], 2, 1⟩ := by
  decide

/-- C7 amended: with a workflow or success filter active and `limit = l`,
at most `l` matching pipelines are returned, and once `l` matching
pipelines have been collected no further secondary workflow lookups are
performed and no further pipeline is appended; pagination then stops upon
meeting the next stop-filtered pipeline — in particular, continuing from a
full accumulator on a page with a nonempty stop-filtered item list requests
no page beyond that one.  (When the limit is reached exactly at the end of
a page, the next page is still requested once before this stop fires.) -/
theorem C7_limit_postfilter (wf : String → List CircleCI.CWorkflow)
    (cw ncw : List String) (so : Bool) (l : Nat) (stop : Option String)
    (multipage : Bool) :
    (∀ pages, CircleCI.filtersActive cw ncw so = true →
      (CircleCI.fetch_pipelines wf cw ncw (some l) multipage so stop
          pages).pipelines.length ≤ l)
    ∧ (∀ (pages : List CircleCI.Page) (acc : List CircleCI.CPipeline) (n k : Nat),
        CircleCI.filtersActive cw ncw so = true → acc.length ≥ l →
        (CircleCI.fetch_go wf cw ncw (some l) multipage so stop pages acc n k).pipelines
            = acc
          ∧ (CircleCI.fetch_go wf cw ncw (some l) multipage so stop pages acc n k).lookups
            = k)
    ∧ (∀ (pg : CircleCI.Page) (rest : List CircleCI.Page)
        (acc : List CircleCI.CPipeline) (n k : Nat),
        CircleCI.filtersActive cw ncw so = true → acc.length ≥ l →
        (CircleCI.filter_pipelines pg.items stop).pipelines ≠ [] →
        (CircleCI.fetch_go wf cw ncw (some l) multipage so stop (pg :: rest)
            acc n k).pagesFetched = n + 1) := by
  refine ⟨?_, ?_, ?_⟩
  · intro pages hactive
    have h := CircleCI.fetch_go_length_le wf cw ncw l multipage so stop pages [] 0 0 hactive
    simpa [CircleCI.fetch_pipelines] using h
  · intro pages acc n k hactive hfull
    exact CircleCI.fetch_go_isFull wf cw ncw l multipage so stop pages acc n k hactive hfull
  · intro pg rest acc n k hactive hfull hne
    rw [CircleCI.fetch_go]
    simp only [hactive, if_true]
    rcases hp : (CircleCI.filter_pipelines pg.items stop).pipelines with _ | ⟨p, ps⟩
    · exact absurd hp hne
    · have hfound := CircleCI.match_loop_isFull_found wf cw ncw l so p ps
        ⟨acc, (CircleCI.filter_pipelines pg.items stop).found_stopping_pipeline, k⟩ hfull
      simp [hfound]

/-- Witness for the amended C7 at a concrete input: limit 1, success
filter, one match already collected — continuing performs no lookup,
appends nothing, and stops on the very next page. -/
theorem C7_limit_postfilter_witness :
    (CircleCI.fetch_pipelines (fun _ => [⟨"w", "success"⟩]) [] [] (some 1) true true none
        [⟨[⟨"a", 1⟩], true⟩, ⟨[⟨"b", 2⟩], false⟩]).pipelines.length ≤ 1
    ∧ ((CircleCI.fetch_go (fun _ => [⟨"w", "success"⟩]) [] [] (some 1) true true none
          [⟨[⟨"b", 2⟩], false⟩] [⟨"a", 1⟩] 1 1).pipelines = [⟨"a", 1⟩]
        ∧ (CircleCI.fetch_go (fun _ => [⟨"w", "success"⟩]) [] [] (some 1) true true none
            [⟨[⟨"b", 2⟩], false⟩] [⟨"a", 1⟩] 1 1).lookups = 1)
    ∧ (CircleCI.fetch_go (fun _ => [⟨"w", "success"⟩]) [] [] (some 1) true true none
        [⟨[⟨"b", 2⟩], false⟩] [⟨"a", 1⟩] 1 1).pagesFetched = 2 := by
  have h := C7_limit_postfilter (fun _ => [⟨"w", "success"⟩]) [] [] true 1 none true
  refine ⟨h.1 [⟨[⟨"a", 1⟩], true⟩, ⟨[⟨"b", 2⟩], false⟩] (by decide),
    h.2.1 [⟨[⟨"b", 2⟩], false⟩] [⟨"a", 1⟩] 1 1 (by decide) (by decide),
    h.2.2 ⟨[⟨"b", 2⟩], false⟩ [] [⟨"a", 1⟩] 1 1 (by decide) (by decide) (by decide)⟩

/-! ## scheduler.py — the per-pipeline check `_check_pipeline` -/

namespace Scheduler

/-- The `pipeline["vcs"]` sub-record, with the fields `_check_pipeline`
reads. -/
structure VcsInfo where
  revision : String
  origin_repository_url : String
  target_repository_url : String
  branch : String
deriving DecidableEq, Repr

/-- A pipeline record as consumed by `_check_pipeline` and
`check_and_schedule`. -/
structure SPipeline where
  id : String
  number : Nat
  vcs : VcsInfo
deriving DecidableEq, Repr

/-- The `DangerCandidatePipeline` dataclass (scheduler.py lines 35-45).
`repo_dir` is the numeric identifier of the pipeline's temporary working
tree; the Python set of pull requests is a list. -/
structure DangerCandidatePipeline where
  check_details : String
  commit : String
  pipeline_nr : Nat
  pull_requests : Option (List Nat)
  repo_dir : Nat
  safe : Bool
  should_run_danger : Bool
deriving DecidableEq, Repr

/-- The `DangerPRExecution` dataclass (scheduler.py lines 48-54). -/
structure DangerPRExecution where
  commit : String
  pull_request : Nat
  repo_dir : Nat
deriving DecidableEq, Repr

/-- Outcomes of the external calls `_check_pipeline` makes for one
pipeline; `Except.error e` models the call raising an exception whose
message is `e`. -/
structure CheckOra where
  configResult : Except String String
  checkoutResult : Except String Unit
  newProtectedFiles : List (String × Option String)
  newSchedulerSha : String
  workflowsResult : Except String (List String)
  workflowPrsResult : Except String (List Nat)

/-- `int(pipeline["vcs"]["branch"].split("pull/")[1])` (scheduler.py line
313): `none` models the IndexError / ValueError that the surrounding
`except` block catches. -/
def parsePRNumber (branch : String) : Option Nat :=
  match (branch.splitOn "pull/").get? 1 with
  | none => none
  | some s => s.toNat?

/-- Result of the per-pipeline check, instrumented with the number of
pull-request-resolution lookups performed (`get_pipeline_workflows` and
`get_workflow_prs` calls made from the PR-resolution block); an
`Except.error` result models an exception escaping `_check_pipeline`. -/
structure CheckOutcome where
  result : Except String DangerCandidatePipeline
  wfLookups : Nat
  prLookups : Nat

/-- Embedding of `_check_pipeline` (scheduler.py lines 230-338).

The call `circleci.get_pipeline_config(pipeline["id"])` on line 253 is
outside every `try` block, so its failure escapes; the
`except CommandError` on line 259 catches only the clone/checkout failure;
the `except Exception` on line 315 catches any failure of the
pull-request-resolution block (lines 294-314). -/
def check_pipeline (esc h : String → String) (pipeline : SPipeline) (repo_dir : Nat)
    (o : CheckOra) (reference_config : String)
    (reference_protected_files : List (String × Option String))
    (reference_scheduler_sha : String) : CheckOutcome :=
  let commit := pipeline.vcs.revision
  let nr := pipeline.number
  let pid := pipeline.id
  match o.configResult with
  | .error e => ⟨.error e, 0, 0⟩
  | .ok compiled =>
    match o.checkoutResult with
    | .error _ =>
      let check_details :=
        "Unable to checkout revision " ++ commit
          ++ " on contributor repo for pipeline #" ++ toString nr
          ++ " (" ++ pid ++ ")!"
      ⟨.ok ⟨check_details, commit, nr, none, repo_dir, false, false⟩, 0, 0⟩
    | .ok _ =>
      let sc := safety_check esc h o.newProtectedFiles o.newSchedulerSha compiled
        reference_config reference_protected_files reference_scheduler_sha
      let safe := sc.1
      let check_details := sc.2
      let internal :=
        pipeline.vcs.origin_repository_url == pipeline.vcs.target_repository_url
      if internal then
        match o.workflowsResult with
        | .error _ =>
          ⟨.ok ⟨check_details, commit, nr, none, repo_dir, false, false⟩, 1, 0⟩
        | .ok [] =>
          ⟨.ok ⟨check_details, commit, nr, none, repo_dir, false, false⟩, 1, 0⟩
        | .ok (_w :: _) =>
          match o.workflowPrsResult with
          | .error _ =>
            ⟨.ok ⟨check_details, commit, nr, none, repo_dir, false, false⟩, 1, 1⟩
          | .ok prs =>
            ⟨.ok ⟨check_details, commit, nr, some prs, repo_dir, safe,
              !internal && safe⟩, 1, 1⟩
      else
        match parsePRNumber pipeline.vcs.branch with
        | none =>
          ⟨.ok ⟨check_details, commit, nr, none, repo_dir, false, false⟩, 0, 0⟩
        | some pr =>
          ⟨.ok ⟨check_details, commit, nr, some [pr], repo_dir, safe,
            !internal && safe⟩, 0, 0⟩

end Scheduler

/-! ## scheduler.py — pull-request deduplication in `check_and_schedule` -/

namespace Scheduler

/-- Stable insertion into a list sorted by descending `pipeline_nr`. -/
def insertDesc (p : DangerCandidatePipeline) :
    List DangerCandidatePipeline → List DangerCandidatePipeline
  | [] => [p]
  | q :: rest =>
    if q.pipeline_nr ≤ p.pipeline_nr then p :: q :: rest else q :: insertDesc p rest

/-- Embedding of
`sorted(results, key=lambda p: p.pipeline_nr, reverse=True)`
(scheduler.py lines 185-187): a stable sort by descending pipeline
number, realised as insertion sort. -/
def sortPipelines (l : List DangerCandidatePipeline) : List DangerCandidatePipeline :=
  l.foldr insertDesc []

/-- One `_notify_safety_check` call issued by the deduplication loop
(scheduler.py line 199): the pipeline whose verdict is reported, and the
pull request commented on. -/
structure NotifyEvent where
  pipeline : DangerCandidatePipeline
  pull_request : Nat
deriving DecidableEq, Repr

/-- The pull requests of a candidate (empty for `None`). -/
def prsOf (p : DangerCandidatePipeline) : List Nat :=
  match p.pull_requests with
  | none => []
  | some l => l

/-- The inner `for pull_request in p.pull_requests` loop (scheduler.py
lines 196-211), threading the `prs_to_check` set (as a list). -/
def prLoop (p : DangerCandidatePipeline) (prs : List Nat) (seen : List Nat) :
    List NotifyEvent × List DangerPRExecution × List Nat :=
  match prs with
  | [] => ([], [], seen)
  | q :: rest =>
    if q ∈ seen then prLoop p rest seen
    else
      let r := prLoop p rest (q :: seen)
      (⟨p, q⟩ :: r.1,
        (if p.should_run_danger then [⟨p.commit, q, p.repo_dir⟩] else []) ++ r.2.1,
        r.2.2)

/-- The truthiness test `if p.pull_requests:` (scheduler.py line 195):
false for `None` and for the empty set. -/
def prGuard (p : DangerCandidatePipeline) : Bool :=
  match p.pull_requests with
  | none => false
  | some l => !l.isEmpty

/-- The outer `for p in sorted_pipelines` loop (scheduler.py lines
194-211). -/
def pipeLoop (ps : List DangerCandidatePipeline) (seen : List Nat) :
    List NotifyEvent × List DangerPRExecution × List Nat :=
  match ps with
  | [] => ([], [], seen)
  | p :: rest =>
    if prGuard p then
      let r1 := prLoop p (prsOf p) seen
      let r2 := pipeLoop rest r1.2.2
      (r1.1 ++ r2.1, r1.2.1 ++ r2.2.1, r2.2.2)
    else pipeLoop rest seen

/-- The deduplication stage of `check_and_schedule` (scheduler.py lines
184-211): sort by descending pipeline number, then run the loop with an
empty `prs_to_check`. -/
def dedupStage (results : List DangerCandidatePipeline) :
    List NotifyEvent × List DangerPRExecution :=
  let r := pipeLoop (sortPipelines results) []
  (r.1, r.2.1)

end Scheduler

namespace Scheduler

theorem prLoop_seen_mono (p : DangerCandidatePipeline) (prs seen : List Nat) :
    seen ⊆ (prLoop p prs seen).2.2 := by
  induction prs generalizing seen with
  | nil => simp [prLoop]
  | cons q rest ih =>
    rw [prLoop]
    by_cases hq : q ∈ seen
    · simpa [hq] using ih seen
    · simp only [hq, if_false]
      intro x hx
      exact ih (q :: seen) (List.mem_cons_of_mem q hx)

theorem prLoop_seen_sup (p : DangerCandidatePipeline) (prs seen : List Nat) :
    ∀ q ∈ prs, q ∈ (prLoop p prs seen).2.2 := by
  induction prs generalizing seen with
  | nil => simp
  | cons q rest ih =>
    intro x hx
    rw [prLoop]
    by_cases hq : q ∈ seen
    · rcases List.mem_cons.mp hx with rfl | hx'
      · simpa [hq] using prLoop_seen_mono p rest seen hq
      · simpa [hq] using ih seen x hx'
    · simp only [hq, if_false]
      rcases List.mem_cons.mp hx with rfl | hx'
      · exact prLoop_seen_mono p rest (x :: seen) (List.mem_cons_self x seen)
      · exact ih (q :: seen) x hx'

theorem prLoop_events (p : DangerCandidatePipeline) (prs seen : List Nat) :
    ∀ e ∈ (prLoop p prs seen).1,
      e.pipeline = p ∧ e.pull_request ∈ prs ∧ e.pull_request ∉ seen := by
  induction prs generalizing seen with
  | nil => simp [prLoop]
  | cons q rest ih =>
    intro e he
    rw [prLoop] at he
    by_cases hq : q ∈ seen
    · simp only [hq, if_true] at he
      obtain ⟨h1, h2, h3⟩ := ih seen e he
      exact ⟨h1, List.mem_cons_of_mem q h2, h3⟩
    · simp only [hq, if_false] at he
      rcases List.mem_cons.mp he with rfl | he'
      · exact ⟨rfl, List.mem_cons_self q rest, hq⟩
      · obtain ⟨h1, h2, h3⟩ := ih (q :: seen) e he'
        exact ⟨h1, List.mem_cons_of_mem q h2,
          fun hx => h3 (List.mem_cons_of_mem q hx)⟩

theorem prLoop_events_in_seen (p : DangerCandidatePipeline) (prs seen : List Nat) :
    ∀ e ∈ (prLoop p prs seen).1, e.pull_request ∈ (prLoop p prs seen).2.2 := by
  induction prs generalizing seen with
  | nil => simp [prLoop]
  | cons q rest ih =>
    intro e he
    rw [prLoop] at he ⊢
    by_cases hq : q ∈ seen
    · simp only [hq, if_true] at he ⊢
      exact ih seen e he
    · simp only [hq, if_false] at he ⊢
      rcases List.mem_cons.mp he with rfl | he'
      · exact prLoop_seen_mono p rest (q :: seen) (List.mem_cons_self q seen)
      · exact ih (q :: seen) e he'

theorem prLoop_events_nodup (p : DangerCandidatePipeline) (prs seen : List Nat) :
    ((prLoop p prs seen).1.map (fun e => e.pull_request)).Nodup := by
  induction prs generalizing seen with
  | nil => simp [prLoop]
  | cons q rest ih =>
    rw [prLoop]
    by_cases hq : q ∈ seen
    · simpa [hq] using ih seen
    · simp only [hq, if_false, List.map_cons, List.nodup_cons]
      refine ⟨?_, ih (q :: seen)⟩
      intro hmem
      rcases List.mem_map.mp hmem with ⟨e, he, hpr⟩
      have := (prLoop_events p rest (q :: seen) e he).2.2
      exact this (hpr ▸ List.mem_cons_self q seen)

theorem prLoop_execs (p : DangerCandidatePipeline) (prs seen : List Nat) :
    (prLoop p prs seen).2.1 =
      ((prLoop p prs seen).1.filter (fun e => e.pipeline.should_run_danger)).map
        (fun e => ⟨e.pipeline.commit, e.pull_request, e.pipeline.repo_dir⟩) := by
  induction prs generalizing seen with
  | nil => simp [prLoop]
  | cons q rest ih =>
    rw [prLoop]
    by_cases hq : q ∈ seen
    · simpa [hq] using ih seen
    · simp only [hq, if_false]
      by_cases hd : p.should_run_danger = true <;>
        simp [hd, List.filter_cons, ih (q :: seen)]

end Scheduler

namespace Scheduler

theorem prGuard_false_prsOf (p : DangerCandidatePipeline) (h : prGuard p = false) :
    prsOf p = [] := by
  unfold prGuard at h
  unfold prsOf
  rcases hp : p.pull_requests with _ | l
  · rfl
  · rw [hp] at h
    simpa using h

theorem pipeLoop_seen_mono (ps : List DangerCandidatePipeline) (seen : List Nat) :
    seen ⊆ (pipeLoop ps seen).2.2 := by
  induction ps generalizing seen with
  | nil => simp [pipeLoop]
  | cons p rest ih =>
    rw [pipeLoop]
    by_cases hg : prGuard p = true
    · simp only [hg, if_true]
      exact fun x hx => ih (prLoop p (prsOf p) seen).2.2
        (prLoop_seen_mono p (prsOf p) seen hx)
    · simp only [Bool.not_eq_true] at hg
      simpa [hg] using ih seen

theorem pipeLoop_seen_sup (ps : List DangerCandidatePipeline) (seen : List Nat) :
    ∀ p ∈ ps, ∀ q ∈ prsOf p, q ∈ (pipeLoop ps seen).2.2 := by
  induction ps generalizing seen with
  | nil => simp
  | cons p rest ih =>
    intro p' hp' q hq
    rw [pipeLoop]
    by_cases hg : prGuard p = true
    · simp only [hg, if_true]
      rcases List.mem_cons.mp hp' with rfl | hp''
      · exact pipeLoop_seen_mono rest (prLoop p' (prsOf p') seen).2.2
          (prLoop_seen_sup p' (prsOf p') seen q hq)
      · exact ih (prLoop p (prsOf p) seen).2.2 p' hp'' q hq
    · simp only [Bool.not_eq_true] at hg
      simp only [hg, Bool.false_eq_true, if_false]
      rcases List.mem_cons.mp hp' with rfl | hp''
      · rw [prGuard_false_prsOf p' hg] at hq
        simp at hq
      · exact ih seen p' hp'' q hq

theorem pipeLoop_events (ps : List DangerCandidatePipeline) (seen : List Nat) :
    ∀ e ∈ (pipeLoop ps seen).1,
      e.pipeline ∈ ps ∧ e.pull_request ∈ prsOf e.pipeline ∧ e.pull_request ∉ seen := by
  induction ps generalizing seen with
  | nil => simp [pipeLoop]
  | cons p rest ih =>
    intro e he
    rw [pipeLoop] at he
    by_cases hg : prGuard p = true
    · simp only [hg, if_true, List.mem_append] at he
      rcases he with he1 | he2
      · obtain ⟨h1, h2, h3⟩ := prLoop_events p (prsOf p) seen e he1
        exact ⟨h1 ▸ List.mem_cons_self p rest, h1 ▸ h2, h3⟩
      · obtain ⟨h1, h2, h3⟩ := ih (prLoop p (prsOf p) seen).2.2 e he2
        exact ⟨List.mem_cons_of_mem p h1, h2,
          fun hx => h3 (prLoop_seen_mono p (prsOf p) seen hx)⟩
    · simp only [Bool.not_eq_true] at hg
      simp only [hg, Bool.false_eq_true, if_false] at he
      obtain ⟨h1, h2, h3⟩ := ih seen e he
      exact ⟨List.mem_cons_of_mem p h1, h2, h3⟩

theorem pipeLoop_events_nodup (ps : List DangerCandidatePipeline) (seen : List Nat) :
    ((pipeLoop ps seen).1.map (fun e => e.pull_request)).Nodup := by
  induction ps generalizing seen with
  | nil => simp [pipeLoop]
  | cons p rest ih =>
    rw [pipeLoop]
    by_cases hg : prGuard p = true
    · simp only [hg, if_true, List.map_append]
      rw [List.nodup_append]
      refine ⟨prLoop_events_nodup p (prsOf p) seen,
        ih (prLoop p (prsOf p) seen).2.2, ?_⟩
      intro x hx1 hx2
      rcases List.mem_map.mp hx1 with ⟨e1, he1, hpr1⟩
      rcases List.mem_map.mp hx2 with ⟨e2, he2, hpr2⟩
      have hin := prLoop_events_in_seen p (prsOf p) seen e1 he1
      have hout := (pipeLoop_events rest (prLoop p (prsOf p) seen).2.2 e2 he2).2.2
      rw [hpr1] at hin
      rw [hpr2] at hout
      exact hout hin
    · simp only [Bool.not_eq_true] at hg
      simpa [hg] using ih seen

theorem pipeLoop_events_newest (ps : List DangerCandidatePipeline) (seen : List Nat)
    (hsort : ps.Pairwise (fun a b => b.pipeline_nr ≤ a.pipeline_nr)) :
    ∀ e ∈ (pipeLoop ps seen).1, ∀ p ∈ ps,
      e.pull_request ∈ prsOf p → p.pipeline_nr ≤ e.pipeline.pipeline_nr := by
  induction ps generalizing seen with
  | nil => simp [pipeLoop]
  | cons p rest ih =>
    have hhead : ∀ r ∈ rest, r.pipeline_nr ≤ p.pipeline_nr :=
      fun r hr => (List.pairwise_cons.mp hsort).1 r hr
    have htail : rest.Pairwise (fun a b => b.pipeline_nr ≤ a.pipeline_nr) :=
      (List.pairwise_cons.mp hsort).2
    intro e he p' hp' hq
    rw [pipeLoop] at he
    by_cases hg : prGuard p = true
    · simp only [hg, if_true, List.mem_append] at he
      rcases he with he1 | he2
      · have h1 := (prLoop_events p (prsOf p) seen e he1).1
        rw [h1]
        rcases List.mem_cons.mp hp' with rfl | hp''
        · exact le_refl _
        · exact hhead p' hp''
      · rcases List.mem_cons.mp hp' with rfl | hp''
        · exfalso
          have hseen := prLoop_seen_sup p' (prsOf p') seen e.pull_request hq
          exact (pipeLoop_events rest (prLoop p' (prsOf p') seen).2.2 e he2).2.2 hseen
        · exact ih (prLoop p (prsOf p) seen).2.2 htail e he2 p' hp'' hq
    · simp only [Bool.not_eq_true] at hg
      simp only [hg, Bool.false_eq_true, if_false] at he
      rcases List.mem_cons.mp hp' with rfl | hp''
      · rw [prGuard_false_prsOf p' hg] at hq
        simp at hq
      · exact ih seen htail e he p' hp'' hq

theorem pipeLoop_execs (ps : List DangerCandidatePipeline) (seen : List Nat) :
    (pipeLoop ps seen).2.1 =
      ((pipeLoop ps seen).1.filter (fun e => e.pipeline.should_run_danger)).map
        (fun e => ⟨e.pipeline.commit, e.pull_request, e.pipeline.repo_dir⟩) := by
  induction ps generalizing seen with
  | nil => simp [pipeLoop]
  | cons p rest ih =>
    rw [pipeLoop]
    by_cases hg : prGuard p = true
    · simp only [hg, if_true, List.filter_append, List.map_append]
      rw [prLoop_execs p (prsOf p) seen, ih (prLoop p (prsOf p) seen).2.2]
    · simp only [Bool.not_eq_true] at hg
      simpa [hg] using ih seen

end Scheduler

namespace Scheduler

theorem insertDesc_perm (p : DangerCandidatePipeline)
    (l : List DangerCandidatePipeline) : (insertDesc p l).Perm (p :: l) := by
  induction l with
  | nil => exact List.Perm.refl _
  | cons q rest ih =>
    rw [insertDesc]
    by_cases h : q.pipeline_nr ≤ p.pipeline_nr
    · simp only [h, if_true]
      exact List.Perm.refl _
    · simp only [h, if_false]
      exact (List.Perm.cons q ih).trans (List.Perm.swap p q rest)

theorem sortPipelines_perm (l : List DangerCandidatePipeline) :
    (sortPipelines l).Perm l := by
  induction l with
  | nil => exact List.Perm.refl _
  | cons p rest ih =>
    exact (insertDesc_perm p (sortPipelines rest)).trans (List.Perm.cons p ih)

theorem mem_insertDesc (x p : DangerCandidatePipeline)
    (l : List DangerCandidatePipeline) :
    x ∈ insertDesc p l ↔ x = p ∨ x ∈ l := by
  rw [(insertDesc_perm p l).mem_iff]
  simp

theorem insertDesc_pairwise (p : DangerCandidatePipeline)
    (l : List DangerCandidatePipeline)
    (h : l.Pairwise (fun a b => b.pipeline_nr ≤ a.pipeline_nr)) :
    (insertDesc p l).Pairwise (fun a b => b.pipeline_nr ≤ a.pipeline_nr) := by
  induction l with
  | nil => simp [insertDesc]
  | cons q rest ih =>
    obtain ⟨hq, hrest⟩ := List.pairwise_cons.mp h
    rw [insertDesc]
    by_cases hle : q.pipeline_nr ≤ p.pipeline_nr
    · simp only [hle, if_true]
      refine List.pairwise_cons.mpr ⟨?_, h⟩
      intro r hr
      rcases List.mem_cons.mp hr with rfl | hr'
      · exact hle
      · exact le_trans (hq r hr') hle
    · simp only [hle, if_false]
      refine List.pairwise_cons.mpr ⟨?_, ih hrest⟩
      intro r hr
      rcases (mem_insertDesc r p rest).mp hr with rfl | hr'
      · omega
      · exact hq r hr'

theorem sortPipelines_pairwise (l : List DangerCandidatePipeline) :
    (sortPipelines l).Pairwise (fun a b => b.pipeline_nr ≤ a.pipeline_nr) := by
  induction l with
  | nil => simp [sortPipelines]
  | cons p rest ih => exact insertDesc_pairwise p (sortPipelines rest) ih

end Scheduler

/-! ## Claim C3 -/

/-- C3: the scheduling engine sorts the checked pipelines by descending
pipeline number before pull-request resolution; for each distinct pull
request only its first occurrence in the sorted order — a pipeline whose
number is maximal among all pipelines carrying that pull request — issues
the notification and the Danger-action decision, and every later
occurrence is skipped, so each pull request receives at most one comment
mutation and at most one downstream action per run, driven by its newest
pipeline's verdict. -/
theorem C3_pr_dedup (l : List Scheduler.DangerCandidatePipeline) :
    (Scheduler.sortPipelines l).Pairwise (fun a b => b.pipeline_nr ≤ a.pipeline_nr)
    ∧ (Scheduler.sortPipelines l).Perm l
    ∧ ((Scheduler.dedupStage l).1.map (fun e => e.pull_request)).Nodup
    ∧ ((Scheduler.dedupStage l).2.map (fun x => x.pull_request)).Nodup
    ∧ (∀ e ∈ (Scheduler.dedupStage l).1,
        e.pipeline ∈ l ∧ e.pull_request ∈ Scheduler.prsOf e.pipeline
          ∧ ∀ p ∈ l, e.pull_request ∈ Scheduler.prsOf p →
              p.pipeline_nr ≤ e.pipeline.pipeline_nr)
    ∧ (∀ x ∈ (Scheduler.dedupStage l).2, ∃ e ∈ (Scheduler.dedupStage l).1,
        e.pull_request = x.pull_request ∧ e.pipeline.should_run_danger = true
          ∧ x.commit = e.pipeline.commit ∧ x.repo_dir = e.pipeline.repo_dir) := by
  have hev : (Scheduler.dedupStage l).1
      = (Scheduler.pipeLoop (Scheduler.sortPipelines l) []).1 := rfl
  have hex : (Scheduler.dedupStage l).2
      = (Scheduler.pipeLoop (Scheduler.sortPipelines l) []).2.1 := rfl
  refine ⟨Scheduler.sortPipelines_pairwise l, Scheduler.sortPipelines_perm l, ?_, ?_, ?_, ?_⟩
  · rw [hev]
    exact Scheduler.pipeLoop_events_nodup (Scheduler.sortPipelines l) []
  · rw [hex, Scheduler.pipeLoop_execs, List.map_map]
    have hsub : List.Sublist
        (((Scheduler.pipeLoop (Scheduler.sortPipelines l) []).1.filter
          (fun e => e.pipeline.should_run_danger)).map (fun e => e.pull_request))
        ((Scheduler.pipeLoop (Scheduler.sortPipelines l) []).1.map
          (fun e => e.pull_request)) :=
      (List.filter_sublist _).map (fun e : Scheduler.NotifyEvent => e.pull_request)
    exact (Scheduler.pipeLoop_events_nodup (Scheduler.sortPipelines l) []).sublist hsub
  · intro e he
    rw [hev] at he
    obtain ⟨h1, h2, _⟩ := Scheduler.pipeLoop_events (Scheduler.sortPipelines l) [] e he
    refine ⟨(Scheduler.sortPipelines_perm l).subset h1, h2, ?_⟩
    intro p hp hq
    exact Scheduler.pipeLoop_events_newest (Scheduler.sortPipelines l) []
      (Scheduler.sortPipelines_pairwise l) e he p
      ((Scheduler.sortPipelines_perm l).symm.subset hp) hq
  · intro x hx
    rw [hex, Scheduler.pipeLoop_execs] at hx
    rcases List.mem_map.mp hx with ⟨e, he, hfe⟩
    have hf := List.mem_filter.mp he
    rw [hev]
    refine ⟨e, hf.1, ?_, by simpa using hf.2, ?_, ?_⟩
    · rw [← hfe]
    · rw [← hfe]
    · rw [← hfe]

/-- Witness for C3 at the spec's concrete example: pipelines numbered 10
and 8 both carrying pull request 42 — one notification, driven by the
number-10 pipeline, and the number-8 pipeline is skipped. -/
theorem C3_pr_dedup_witness :
    ((Scheduler.dedupStage
        [⟨"d2", "c2", 8, some [42], 2, true, true⟩,
         ⟨"d1", "c1", 10, some [42], 1, true, true⟩]).1.map
      (fun e => e.pull_request)).Nodup
    ∧ (Scheduler.dedupStage
        [⟨"d2", "c2", 8, some [42], 2, true, true⟩,
         ⟨"d1", "c1", 10, some [42], 1, true, true⟩]).1 =
      [⟨⟨"d1", "c1", 10, some [42], 1, true, true⟩, 42⟩]
    ∧ (8 : Nat) ≤ 10 := by
  have h := C3_pr_dedup
    [⟨"d2", "c2", 8, some [42], 2, true, true⟩,
     ⟨"d1", "c1", 10, some [42], 1, true, true⟩]
  refine ⟨h.2.2.1, by decide, ?_⟩
  have he := h.2.2.2.2.1 ⟨⟨"d1", "c1", 10, some [42], 1, true, true⟩, 42⟩ (by decide)
  exact he.2.2 ⟨"d2", "c2", 8, some [42], 2, true, true⟩ (by decide) (by decide)

/-! ## Claims C4 and C6 -/

/-- C4 counterexample: a transient connection error raised while
retrieving the pipeline's configuration (line 253 of scheduler.py, outside
every `try` block) propagates out of the per-pipeline check instead of
being downgraded to an unsafe / no-action result. -/
theorem C4_config_error_propagates :
    (Scheduler.check_pipeline id id ⟨"p1", 7, ⟨"r1", "u1", "u1", "main"⟩⟩ 1
      ⟨.error "Unable to contact CircleCI (connection error).", .ok (), [], "",
        .ok ["w1"], .ok [5]⟩
      "cfg" [] "").result =
      .error "Unable to contact CircleCI (connection error)." := by
  rfl

/-- C4 amended: any failure of the clone/checkout step and any error
raised during the pull-request-resolution block (workflow listing,
workflow-PR lookup, branch parsing) downgrades only that pipeline to an
unsafe / no-action result and does not propagate out of the per-pipeline
check; a transient error during the retrieval of the pipeline's
configuration, however, is not caught and propagates out of the
per-pipeline check (aborting the run when the pool results are
collected). -/
theorem C4_error_containment (esc h : String → String)
    (pipeline : Scheduler.SPipeline) (repo_dir : Nat) (o : Scheduler.CheckOra)
    (rc : String) (rpf : List (String × Option String)) (rs : String)
    (c : String) (hc : o.configResult = .ok c) :
    ((Scheduler.check_pipeline esc h pipeline repo_dir o rc rpf rs).result.isOk = true)
    ∧ (∀ e, o.checkoutResult = .ok () → o.workflowsResult = .error e →
        (pipeline.vcs.origin_repository_url == pipeline.vcs.target_repository_url) = true →
        ∃ dcp, (Scheduler.check_pipeline esc h pipeline repo_dir o rc rpf rs).result
            = .ok dcp
          ∧ dcp.safe = false ∧ dcp.should_run_danger = false
          ∧ dcp.pull_requests = none ∧ dcp.repo_dir = repo_dir)
    ∧ (∀ e ws w, o.checkoutResult = .ok () → o.workflowsResult = .ok (w :: ws) →
        o.workflowPrsResult = .error e →
        (pipeline.vcs.origin_repository_url == pipeline.vcs.target_repository_url) = true →
        ∃ dcp, (Scheduler.check_pipeline esc h pipeline repo_dir o rc rpf rs).result
            = .ok dcp
          ∧ dcp.safe = false ∧ dcp.should_run_danger = false
          ∧ dcp.pull_requests = none ∧ dcp.repo_dir = repo_dir) := by
  refine ⟨?_, ?_, ?_⟩
  · unfold Scheduler.check_pipeline
    rw [hc]
    rcases o.checkoutResult with e | u
    · rfl
    · cases u
      by_cases hi : (pipeline.vcs.origin_repository_url
          == pipeline.vcs.target_repository_url) = true
      · simp only [hi, if_true]
        rcases o.workflowsResult with e | ws
        · rfl
        · rcases ws with _ | ⟨w, ws'⟩
          · rfl
          · rcases o.workflowPrsResult with e | prs <;> rfl
      · simp only [Bool.not_eq_true] at hi
        simp only [hi, Bool.false_eq_true, if_false]
        rcases Scheduler.parsePRNumber pipeline.vcs.branch with _ | pr <;> rfl
  · intro e hk hw hi
    unfold Scheduler.check_pipeline
    rw [hc, hk, hw]
    simp only [hi, if_true]
    exact ⟨_, rfl, rfl, rfl, rfl, rfl⟩
  · intro e ws w hk hw hp hi
    unfold Scheduler.check_pipeline
    rw [hc, hk, hw, hp]
    simp only [hi, if_true]
    exact ⟨_, rfl, rfl, rfl, rfl, rfl⟩

/-- Witness for the amended C4 at concrete inputs: a contained
checkout-plus-PR-resolution scenario for each conjunct. -/
theorem C4_error_containment_witness :
    ((Scheduler.check_pipeline id id ⟨"p2", 9, ⟨"r2", "u2", "u2", "main"⟩⟩ 2
      ⟨.ok "cfg", .ok (), [], "", .error "Unable to contact CircleCI (connection timeout).",
        .ok [5]⟩ "cfg" [] "").result.isOk = true)
    ∧ (∃ dcp, (Scheduler.check_pipeline id id ⟨"p2", 9, ⟨"r2", "u2", "u2", "main"⟩⟩ 2
        ⟨.ok "cfg", .ok (), [], "", .error "Unable to contact CircleCI (connection timeout).",
          .ok [5]⟩ "cfg" [] "").result = .ok dcp
        ∧ dcp.safe = false ∧ dcp.should_run_danger = false
        ∧ dcp.pull_requests = none ∧ dcp.repo_dir = 2) := by
  have h := C4_error_containment id id ⟨"p2", 9, ⟨"r2", "u2", "u2", "main"⟩⟩ 2
    ⟨.ok "cfg", .ok (), [], "", .error "Unable to contact CircleCI (connection timeout).",
      .ok [5]⟩ "cfg" [] "" "cfg" rfl
  exact ⟨h.1, h.2.1 "Unable to contact CircleCI (connection timeout)." rfl rfl (by decide)⟩

/-- C6: when the clone or checkout of the contributor repository fails
(and the configuration retrieval succeeded), the per-pipeline check
returns — without raising — a result marked unsafe carrying the diagnostic
detail message, with no pull requests (`none`), no Danger run scheduled,
zero pull-request-resolution lookups performed, and the pipeline's working
tree handle still recorded in the returned result for cleanup
bookkeeping. -/
theorem C6_checkout_failure (esc h : String → String)
    (pipeline : Scheduler.SPipeline) (repo_dir : Nat) (o : Scheduler.CheckOra)
    (rc : String) (rpf : List (String × Option String)) (rs : String)
    (c e : String) (hc : o.configResult = .ok c) (hk : o.checkoutResult = .error e) :
    Scheduler.check_pipeline esc h pipeline repo_dir o rc rpf rs =
      ⟨.ok ⟨"Unable to checkout revision " ++ pipeline.vcs.revision
            ++ " on contributor repo for pipeline #" ++ toString pipeline.number
            ++ " (" ++ pipeline.id ++ ")!",
          pipeline.vcs.revision, pipeline.number, none, repo_dir, false, false⟩,
        0, 0⟩ := by
  unfold Scheduler.check_pipeline
  rw [hc, hk]

/-- Witness for C6 at a concrete input. -/
theorem C6_checkout_failure_witness :
    Scheduler.check_pipeline id id ⟨"p3", 11, ⟨"r3", "o3", "t3", "pull/44"⟩⟩ 3
      ⟨.ok "cfg", .error "CommandError", [("f", some "x")], "sha", .ok [], .ok []⟩
      "cfg" [("f", some "x")] "sha" =
      ⟨.ok ⟨"Unable to checkout revision r3 on contributor repo for pipeline #11 (p3)!",
          "r3", 11, none, 3, false, false⟩, 0, 0⟩ := by
  have h := C6_checkout_failure id id ⟨"p3", 11, ⟨"r3", "o3", "t3", "pull/44"⟩⟩ 3
    ⟨.ok "cfg", .error "CommandError", [("f", some "x")], "sha", .ok [], .ok []⟩
    "cfg" [("f", some "x")] "sha" "cfg" "CommandError" rfl rfl
  simpa using h

/-! ## scheduler.py — control flow of `check_and_schedule` -/

namespace Scheduler

/-- Outcome of one `check_and_schedule` run, instrumented for the claims:
how the run ended (`exitCode = some 1` models `exit(1)`, `crashed = true`
an uncaught exception escaping the function), the number of pull-request
comments posted or edited, the number of Danger executions dispatched, the
number of candidate pipelines processed, and the number of temporary
working trees materialized (`tempfile.TemporaryDirectory()`) resp.
explicitly released (`.cleanup()`). -/
structure RunOutcome where
  exitCode : Option Nat
  crashed : Bool
  commentsPosted : Nat
  dangerDispatched : Nat
  pipelinesChecked : Nat
  materialized : Nat
  released : Nat
deriving DecidableEq, Repr

/-- The environment of one run: whether the reference-branch fetch
returned a pipeline, the reference data derived from it, and the candidate
pipelines together with the outcomes of their external calls. -/
structure RunWorld where
  hasReference : Bool
  referenceConfig : String
  referenceProtectedFiles : List (String × Option String)
  referenceSchedulerSha : String
  candidates : List (SPipeline × CheckOra)

/-- Embedding of the control flow of `check_and_schedule` (scheduler.py
lines 98-227) at the granularity the claims need:

* line 111 materializes the reference working tree before anything else;
* lines 126-128: with no reference pipeline the run prints and calls
  `exit(1)`; no `.cleanup()` call runs on this path;
* lines 175-182: each candidate's `_check_pipeline` materializes one
  working tree (handle `i + 1` for candidate `i`);
* line 186 (`list(results)`) re-raises the first exception captured by the
  thread pool, which then escapes `check_and_schedule`: no comment is
  posted and no `.cleanup()` runs;
* lines 184-211: the deduplication stage issues one `_notify_safety_check`
  per notify event and collects one `DangerPRExecution` per dispatch;
* lines 222-226: `results` is the one-shot iterator returned by
  `executor.map`, already exhausted by `list(results)` on line 186, so the
  comprehension `set(result.repo_dir for result in results)` observes no
  element and no candidate working tree is released;
* line 227 releases the reference working tree. -/
def runScheduler (esc h : String → String) (w : RunWorld) : RunOutcome :=
  if !w.hasReference then
    ⟨some 1, false, 0, 0, 0, 1, 0⟩
  else
    let outcomes := ((List.range w.candidates.length).zip w.candidates).map
      (fun x => check_pipeline esc h x.2.1 (x.1 + 1) x.2.2 w.referenceConfig
        w.referenceProtectedFiles w.referenceSchedulerSha)
    let materialized := 1 + w.candidates.length
    if outcomes.any (fun oc => !oc.result.isOk) then
      ⟨none, true, 0, 0, w.candidates.length, materialized, 0⟩
    else
      let results := outcomes.filterMap (fun oc => oc.result.toOption)
      let deduped := dedupStage results
      let resultsSecondIteration : List DangerCandidatePipeline := []
      let sweptRepoDirs := (resultsSecondIteration.map (fun r => r.repo_dir)).dedup
      ⟨none, false, deduped.1.length, deduped.2.length, w.candidates.length,
        materialized, sweptRepoDirs.length + 1⟩

end Scheduler

/-! ## Claims C9 and C5 -/

/-- C9: when no reference pipeline can be found on the trusted branch, the
run halts immediately with exit status 1 and performs no further side
effects: no pull-request comment is posted or edited, no Danger run is
dispatched, and no candidate pipeline is processed. -/
theorem C9_no_reference_fatal_halt (esc h : String → String)
    (w : Scheduler.RunWorld) (hw : w.hasReference = false) :
    (Scheduler.runScheduler esc h w).exitCode = some 1
    ∧ (Scheduler.runScheduler esc h w).commentsPosted = 0
    ∧ (Scheduler.runScheduler esc h w).dangerDispatched = 0
    ∧ (Scheduler.runScheduler esc h w).pipelinesChecked = 0 := by
  unfold Scheduler.runScheduler
  simp [hw]

/-- Witness for C9 at a concrete world with an empty reference fetch. -/
theorem C9_no_reference_fatal_halt_witness :
    (Scheduler.runScheduler id id ⟨false, "", [], "",
        [(⟨"p1", 7, ⟨"r1", "u1", "u1", "pull/5"⟩⟩,
          ⟨.ok "cfg", .ok (), [], "", .ok [], .ok []⟩)]⟩).exitCode = some 1
    ∧ (Scheduler.runScheduler id id ⟨false, "", [], "",
        [(⟨"p1", 7, ⟨"r1", "u1", "u1", "pull/5"⟩⟩,
          ⟨.ok "cfg", .ok (), [], "", .ok [], .ok []⟩)]⟩).commentsPosted = 0
    ∧ (Scheduler.runScheduler id id ⟨false, "", [], "",
        [(⟨"p1", 7, ⟨"r1", "u1", "u1", "pull/5"⟩⟩,
          ⟨.ok "cfg", .ok (), [], "", .ok [], .ok []⟩)]⟩).dangerDispatched = 0
    ∧ (Scheduler.runScheduler id id ⟨false, "", [], "",
        [(⟨"p1", 7, ⟨"r1", "u1", "u1", "pull/5"⟩⟩,
          ⟨.ok "cfg", .ok (), [], "", .ok [], .ok []⟩)]⟩).pipelinesChecked = 0 :=
  C9_no_reference_fatal_halt id id ⟨false, "", [], "",
    [(⟨"p1", 7, ⟨"r1", "u1", "u1", "pull/5"⟩⟩,
      ⟨.ok "cfg", .ok (), [], "", .ok [], .ok []⟩)]⟩ rfl

/-- C5 evaluated at the failing inputs: on a successful run with one
candidate pipeline, two working trees are materialized but only the
reference tree is released — the final sweep on line 223 iterates the
`executor.map` iterator already exhausted by `list(results)` on line 186,
so it observes no candidate handle; and on the fatal-halt path one tree is
materialized and none is released.  The released count therefore differs
from the materialized count on both paths, contradicting the claimed
invariant. -/
theorem C5_cleanup_leak :
    ((Scheduler.runScheduler id id ⟨true, "cfg", [], "",
        [(⟨"p1", 7, ⟨"r1", "u1", "u1", "pull/5"⟩⟩,
          ⟨.ok "cfg", .ok (), [], "", .ok [], .ok []⟩)]⟩).materialized = 2
      ∧ (Scheduler.runScheduler id id ⟨true, "cfg", [], "",
        [(⟨"p1", 7, ⟨"r1", "u1", "u1", "pull/5"⟩⟩,
          ⟨.ok "cfg", .ok (), [], "", .ok [], .ok []⟩)]⟩).released = 1)
    ∧ ((Scheduler.runScheduler id id ⟨false, "", [], "", []⟩).materialized = 1
      ∧ (Scheduler.runScheduler id id ⟨false, "", [], "", []⟩).released = 0) := by
  refine ⟨⟨rfl, rfl⟩, rfl, rfl⟩
